import Mathlib

/-!
# HaloQuery gamespy-crypto binding: verification of the Decode Gateway

Shallow embedding of `src/gamespy-crypto/binding.cpp` (the `Decryptx`
N-API gateway).  The external Decode Engine `enctypex_wrapper` is only
declared in `src/gamespy-crypto/enctypex_decoder.h`; here it is an
arbitrary function parameter (`Engine`), optionally constrained by the
contract the spec states for it (`EngineContract`).

Memory is modelled by an explicit store of byte buffers: a buffer is a
`List Nat` of its bytes, the store is the list of all allocated buffers,
and a buffer is referred to by its index in the store.  Allocation
appends a fresh buffer (so fresh ids never alias existing ones), and
in-place mutation is `List.set` on the store.  This makes the aliasing
and framing claims about `Decryptx` directly statable.

Control flow of the error path: `error` is `ThrowAsJavaScriptException`,
which only records the error as the pending exception — the C++ function
keeps executing, since the source has no `return` after `error()`.  A
second throw while an exception is already pending makes `napi_throw`
fail and `NAPI_FATAL_IF_FAILED` abort the process; the checks run before
the allocations, so an aborting call allocates nothing.  With exactly
one pending exception the call falls through: the plain N-API getters
(`napi_get_value_string_utf8`, `napi_get_buffer_info`) still run — only
the conversion of the one offending argument fails and yields its
default ("" for a non-string key/validate, length 0 and no bytes for a
non-buffer data) — the working buffers are allocated, the bytes are
copied, and the engine is invoked; at the end neither `env.Null()` nor
`Buffer::Copy` (whose `napi_create_buffer_copy` refuses to run with a
pending exception) delivers a result, so the caller observes the first
thrown failure.  The embedding mirrors exactly this: outcome `.fatal`
when two or more checks fail, fall-through allocation plus engine
invocation with outcome `.err` when exactly one fails, and the normal
path when none fails.
-/

namespace HaloQuery

/-- A byte buffer: the list of its byte values.  Bytes are opaque data to
the gateway (it only copies them), so they are plain naturals here. -/
abbrev Buf := List Nat

/-- The memory store: all currently allocated buffers, indexed by position.
Index `i` is a buffer id; ids of live buffers are `< σ.length`. -/
abbrev Store := List Buf

/-- Read the contents of buffer `i` (a dangling id reads as empty). -/
def readBuf (σ : Store) (i : Nat) : Buf := σ.getD i []

/-- In-place overwrite of buffer `i` with bytes `b`. -/
def writeBuf (σ : Store) (i : Nat) (b : Buf) : Store := σ.set i b

/-- Allocate a fresh buffer holding bytes `b`; returns the new store and
the fresh id.  Models `unsigned char name[n]` + `memcpy` as one step. -/
def allocBuf (σ : Store) (b : Buf) : Store × Nat := (σ ++ [b], σ.length)

/-- A JavaScript argument value as the gateway can observe it:
a string, a `Buffer` (identified by its id in the store), or any other
value (`undefined`, numbers, ...), which is neither string nor buffer. -/
inductive JsValue where
  | str (s : String)
  | buf (id : Nat)
  | undef
deriving DecidableEq

/-- `Napi::Value::IsString`. -/
def JsValue.isString : JsValue → Bool
  | .str _ => true
  | _ => false

/-- `Napi::Value::IsBuffer`. -/
def JsValue.isBuffer : JsValue → Bool
  | .buf _ => true
  | _ => false

/-- `info[i].As<Napi::String>().Utf8Value()` source string (only reached
after `IsString` holds, so the default is irrelevant). -/
def JsValue.asString : JsValue → String
  | .str s => s
  | _ => ""

/-- The bytes `Napi::Buffer::Data`/`Length` report for the data
argument: the buffer's contents for a real buffer; for a non-buffer
value `napi_get_buffer_info` fails and the lazily initialized length
stays 0 with no data pointer. -/
def JsValue.bufferBytes (σ : Store) : JsValue → Buf
  | .buf i => readBuf σ i
  | _ => []

/-- The UTF-8 bytes of a string, as `Napi::String::Utf8Value` produces
them: the concatenation of the UTF-8 encodings of its characters. -/
def utf8Bytes (s : String) : Buf :=
  (s.data.flatMap String.utf8EncodeChar).map (fun b => b.toNat)

/-- Result of one invocation of the Decode Engine: the returned `int`,
and the contents of the data buffer it mutated in place. -/
structure EngineResult where
  ret : Int
  data : Buf
deriving DecidableEq

/-- The external Decode Engine `enctypex_wrapper(key, validate, data, size)`:
an arbitrary (deterministic, stateless) function of the three buffers and
the declared length. -/
abbrev Engine := Buf → Buf → Buf → Nat → EngineResult

/-- The contract the spec imposes on the Decode Engine when called with
`size` equal to the data buffer's length: it returns `-1`, or a count `r`
with `0 ≤ r ≤ size`; and its in-place mutation preserves the data
buffer's length. -/
def EngineContract (e : Engine) : Prop :=
  ∀ key validate d,
    ((e key validate d d.length).ret = -1 ∨
      (0 ≤ (e key validate d d.length).ret ∧
        (e key validate d d.length).ret ≤ (d.length : Int))) ∧
    (e key validate d d.length).data.length = d.length

/-- The caller-visible outcome of a `decryptx` call: a thrown failure,
`null`, a returned buffer (by id), a failed final `Napi::Buffer::Copy`
(reachable only with a negative non-`-1` engine return, which a
contract-satisfying engine never produces), or a process abort
(`napi_fatal_error`, raised when a second precondition check throws
while an exception is already pending). -/
inductive Outcome where
  | err (msg : String)
  | nullRes
  | bufRes (id : Nat)
  | copyFail
  | fatal
deriving DecidableEq

/-- `Napi::Buffer<char>::Copy(env, src, len)`: allocates a fresh buffer
with the first `len` bytes of `src`.  `len` arrives as a C `int`
converted to `size_t`; a negative or out-of-range length is not a valid
copy (in C++ it turns into a huge unsigned size) and yields no buffer. -/
def bufferCopy (σ : Store) (src : Buf) (len : Int) : Store × Outcome :=
  if 0 ≤ len ∧ len ≤ (src.length : Int) then
    let a := allocBuf σ (src.take len.toNat)
    (a.1, .bufRes a.2)
  else (σ, .copyFail)

/-- The messages of the failed precondition checks of `Decryptx`, in
source order.  Each failed check calls `error(env, msg)`; the first
message becomes the pending exception, and any further one makes the
throw itself fail fatally. -/
def precondMsgs (info : List JsValue) : List String :=
  (if info.length < 3 then ["Expected 3 arguments"] else []) ++
  (if (info.getD 0 .undef).isString = false then ["Expected key to be a string"] else []) ++
  (if (info.getD 1 .undef).isString = false then ["Expected validate to be a string"] else []) ++
  (if (info.getD 2 .undef).isBuffer = false then ["Expected data to be a Buffer"] else [])

/-- The `Decryptx` gateway of `binding.cpp`, as a function of the Decode
Engine `e`, the store `σ`, and the argument list `info`.  The checks
have no `return` after `error()`: with two or more failed checks the
second throw aborts the process before any allocation (`.fatal`); with
exactly one, execution falls through — the offending argument converts
to its default ("" or an empty buffer), the three working buffers are
still allocated and copied, the engine is still invoked and mutates the
working data buffer — and the pending exception is what the caller
observes (`.err`), no result being deliverable; with none, the call
proceeds normally. -/
def Decryptx (e : Engine) (σ : Store) (info : List JsValue) : Store × Outcome :=
  if 2 ≤ (precondMsgs info).length then (σ, .fatal)
  else
    let key := utf8Bytes (info.getD 0 .undef).asString
    let validate := utf8Bytes (info.getD 1 .undef).asString
    let dataBytes := (info.getD 2 .undef).bufferBytes σ
    let a1 := allocBuf σ key
    let a2 := allocBuf a1.1 validate
    let a3 := allocBuf a2.1 dataBytes
    let er := e key validate dataBytes dataBytes.length
    let σ4 := writeBuf a3.1 a3.2 er.data
    match precondMsgs info with
    | m :: _ => (σ4, .err m)
    | [] =>
      if er.ret = -1 then (σ4, .nullRes)
      else bufferCopy σ4 er.data er.ret

/-- What the JavaScript caller can observe of a finished call: the thrown
message, the `null` result, or the bytes of the returned buffer. -/
inductive Observation where
  | thrown (msg : String)
  | absent
  | bytes (b : Buf)
  | failed
  | aborted
deriving DecidableEq

/-- Project a `(store, outcome)` pair to its caller-visible observation. -/
def observe : Store × Outcome → Observation
  | (_, .err m) => .thrown m
  | (_, .nullRes) => .absent
  | (σ, .bufRes i) => .bytes (readBuf σ i)
  | (_, .copyFail) => .failed
  | (_, .fatal) => .aborted

/-! ## Stub engines (concrete instances of the external collaborator) -/

/-- Stub engine: always signals decode failure (`-1`). -/
def engineFail : Engine := fun _ _ d _ => ⟨-1, d⟩

/-- Stub engine: "decodes" by reversing the buffer and keeping every byte. -/
def engineRev : Engine := fun _ _ d _ => ⟨(d.length : Int), d.reverse⟩

/-- Contract-violating stub engine: returns `-2`, which the gateway does
not treat as the failure sentinel. -/
def engineNegTwo : Engine := fun _ _ d _ => ⟨-2, d⟩

/-! ## Basic store lemmas -/

/-- Writing the third of three freshly allocated cells. -/
theorem writeBuf_third (σ : Store) (a b c y : Buf) :
    writeBuf (σ ++ [a, b, c]) (σ.length + 2) y = σ ++ [a, b, y] := by
  induction σ with
  | nil => rfl
  | cons x t ih =>
    simp only [writeBuf, List.cons_append, List.length_cons] at ih ⊢
    rw [show t.length + 1 + 2 = (t.length + 2) + 1 by omega]
    simp [List.set, ih]

theorem engineFail_contract : EngineContract engineFail := by
  intro key validate d
  exact ⟨Or.inl rfl, rfl⟩

theorem engineRev_contract : EngineContract engineRev := by
  intro key validate d
  refine ⟨Or.inr ⟨?_, ?_⟩, ?_⟩ <;> simp [engineRev]

/-- Reading below the original length ignores appended buffers. -/
theorem readBuf_append_left (σ : Store) (l : List Buf) (i : Nat) (hi : i < σ.length) :
    readBuf (σ ++ l) i = readBuf σ i := by
  simp only [readBuf]
  exact List.getD_append σ l [] i hi

/-- Reading at or past the original length indexes into the appended part. -/
theorem readBuf_append_right (σ : Store) (l : List Buf) (i : Nat) (hi : σ.length ≤ i) :
    readBuf (σ ++ l) i = readBuf l (i - σ.length) := by
  simp only [readBuf]
  exact List.getD_append_right σ l [] i hi

/-- Overwriting buffer `i` leaves every other buffer `j` unchanged. -/
theorem readBuf_writeBuf_ne (σ : Store) (i j : Nat) (b : Buf) (h : i ≠ j) :
    readBuf (writeBuf σ i b) j = readBuf σ j := by
  simp only [readBuf, writeBuf, List.getD_eq_getElem?_getD]
  rw [List.getElem?_set_ne h]

/-- The byte length of the UTF-8 encoding is the string's UTF-8 byte size. -/
theorem utf8Bytes_length (s : String) : (utf8Bytes s).length = s.utf8ByteSize := by
  have h := String.size_toUTF8 s
  simpa [utf8Bytes, String.toUTF8, ByteArray.size] using h

/-- On a well-formed call every precondition check passes. -/
theorem precondMsgs_nil (info : List JsValue) (k v : String) (did : Nat)
    (hlen : 3 ≤ info.length) (h0 : info.getD 0 .undef = .str k)
    (h1 : info.getD 1 .undef = .str v) (h2 : info.getD 2 .undef = .buf did) :
    precondMsgs info = [] := by
  unfold precondMsgs
  rw [if_neg (by omega), h0, h1, h2]
  simp [JsValue.isString, JsValue.isBuffer]

/-- Closed form of `Decryptx` on any non-aborting call (at most one
failed check): the three working buffers are allocated with the
converted inputs' bytes, the engine is invoked on them with the data
byte length and its mutation lands in the third buffer, and then either
the pending exception is observed, or the `-1` test and `Buffer::Copy`
run. -/
theorem Decryptx_not_fatal_eq (e : Engine) (σ : Store) (info : List JsValue)
    (h : (precondMsgs info).length < 2) :
    Decryptx e σ info =
      (let key := utf8Bytes (info.getD 0 .undef).asString
       let validate := utf8Bytes (info.getD 1 .undef).asString
       let d := (info.getD 2 .undef).bufferBytes σ
       let er := e key validate d d.length
       let σ4 := σ ++ [key, validate, er.data]
       match precondMsgs info with
       | m :: _ => (σ4, Outcome.err m)
       | [] =>
         if er.ret = -1 then (σ4, Outcome.nullRes)
         else bufferCopy σ4 er.data er.ret) := by
  unfold Decryptx
  rw [if_neg (by omega)]
  simp only [allocBuf]
  norm_num
  simp only [writeBuf_third]

/-- Closed form of `Decryptx` on a well-formed argument list: the three
working buffers are allocated with exactly the inputs' bytes, the engine
is invoked on them with the data byte length, its mutation lands in the
third working buffer, and the result is the `-1` test followed by
`Napi::Buffer::Copy`. -/
theorem Decryptx_wf_eq (e : Engine) (σ : Store) (info : List JsValue)
    (k v : String) (did : Nat) (hlen : 3 ≤ info.length)
    (h0 : info.getD 0 .undef = .str k) (h1 : info.getD 1 .undef = .str v)
    (h2 : info.getD 2 .undef = .buf did) :
    Decryptx e σ info =
      if (e (utf8Bytes k) (utf8Bytes v) (readBuf σ did) (readBuf σ did).length).ret = -1
      then (σ ++ [utf8Bytes k, utf8Bytes v,
              (e (utf8Bytes k) (utf8Bytes v) (readBuf σ did) (readBuf σ did).length).data],
            .nullRes)
      else bufferCopy
            (σ ++ [utf8Bytes k, utf8Bytes v,
              (e (utf8Bytes k) (utf8Bytes v) (readBuf σ did) (readBuf σ did).length).data])
            (e (utf8Bytes k) (utf8Bytes v) (readBuf σ did) (readBuf σ did).length).data
            (e (utf8Bytes k) (utf8Bytes v) (readBuf σ did) (readBuf σ did).length).ret := by
  have hm := precondMsgs_nil info k v did hlen h0 h1 h2
  rw [Decryptx_not_fatal_eq e σ info (by rw [hm]; decide)]
  simp only [hm, h0, h1, h2, JsValue.asString, JsValue.bufferBytes]

/-- Specialization of `Decryptx_wf_eq` to a three-element argument list,
with the intermediate bindings inlined. -/
theorem Decryptx_wf_eq3 (e : Engine) (σ : Store) (k v : String) (did : Nat) :
    Decryptx e σ [.str k, .str v, .buf did] =
      if (e (utf8Bytes k) (utf8Bytes v) (readBuf σ did) (readBuf σ did).length).ret = -1
      then (σ ++ [utf8Bytes k, utf8Bytes v,
              (e (utf8Bytes k) (utf8Bytes v) (readBuf σ did) (readBuf σ did).length).data],
            .nullRes)
      else bufferCopy
            (σ ++ [utf8Bytes k, utf8Bytes v,
              (e (utf8Bytes k) (utf8Bytes v) (readBuf σ did) (readBuf σ did).length).data])
            (e (utf8Bytes k) (utf8Bytes v) (readBuf σ did) (readBuf σ did).length).data
            (e (utf8Bytes k) (utf8Bytes v) (readBuf σ did) (readBuf σ did).length).ret :=
  Decryptx_wf_eq e σ [.str k, .str v, .buf did] k v did (by simp) rfl rfl rfl

/-- Reading the freshly appended cell. -/
theorem readBuf_append_self (σ : Store) (x : Buf) :
    readBuf (σ ++ [x]) σ.length = x := by
  rw [readBuf_append_right σ [x] σ.length le_rfl]
  simp [readBuf]

/-- Reading the first of three freshly appended cells. -/
theorem readBuf_append3_first (σ : Store) (a b c : Buf) :
    readBuf (σ ++ [a, b, c]) σ.length = a := by
  rw [readBuf_append_right σ [a, b, c] σ.length le_rfl]
  simp [readBuf]

/-- Reading the second of three freshly appended cells. -/
theorem readBuf_append3_second (σ : Store) (a b c : Buf) :
    readBuf (σ ++ [a, b, c]) (σ.length + 1) = b := by
  rw [readBuf_append_right σ [a, b, c] (σ.length + 1) (by omega)]
  simp [readBuf]

/-- Reading the third of three freshly appended cells. -/
theorem readBuf_append3_third (σ : Store) (a b c : Buf) :
    readBuf (σ ++ [a, b, c]) (σ.length + 2) = c := by
  rw [readBuf_append_right σ [a, b, c] (σ.length + 2) (by omega)]
  simp [readBuf]

/-! ## The error path: fall-through and aborts -/

/-- C1 (code bug): `error()` only sets the pending exception and does
not return, so a violated precondition does not stop the call.  With
exactly one violated check — here `data` not a Buffer — the
invalid-argument failure is signaled, yet the three working buffers are
still allocated and copied and the Decode Engine is still invoked: the
returned store has grown by the three working buffers, the third
holding the engine-mutated bytes.  And a call violating more than one
check — here a call with no arguments — never returns at all: the
second throw aborts the process.  This refutes the claim that the
failure is signaled before any buffer allocation, copying, or engine
invocation occurs. -/
theorem decryptx_error_fallthrough (e : Engine) (σ : Store) (k v : String) :
    Decryptx e σ [.str k, .str v, .undef] =
      (σ ++ [utf8Bytes k, utf8Bytes v, (e (utf8Bytes k) (utf8Bytes v) [] 0).data],
        .err "Expected data to be a Buffer") ∧
    Decryptx e σ [] = (σ, .fatal) := by
  constructor
  · have hm : precondMsgs [.str k, .str v, .undef] = ["Expected data to be a Buffer"] := by
      unfold precondMsgs
      simp [JsValue.isString, JsValue.isBuffer]
    rw [Decryptx_not_fatal_eq e σ _ (by rw [hm]; decide)]
    exact rfl
  · unfold Decryptx
    rw [if_pos (by decide)]

example : observe (Decryptx engineRev [[1, 2, 3]] [.str "ab", .str "c", .buf 0]) =
    .bytes [3, 2, 1] := by decide

example : observe (Decryptx engineFail [[1, 2, 3]] [.str "ab", .str "c", .buf 0]) =
    .absent := by decide

example : observe (Decryptx engineRev [[1, 2, 3]] [.str "ab", .str "c"]) =
    .aborted := by decide

example : observe (Decryptx engineRev [[1, 2, 3]] []) = .aborted := by decide

example : observe (Decryptx engineRev [[1, 2, 3]] [.str "ab", .str "c", .undef]) =
    .thrown "Expected data to be a Buffer" := by decide

example : observe (Decryptx engineRev [[1, 2, 3]] [.buf 0, .str "c", .buf 0]) =
    .thrown "Expected key to be a string" := by decide

/-- C4: on every well-formed call the gateway allocates three working
buffers at the next three store indices, sized exactly to `key`'s UTF-8
byte length, `validate`'s UTF-8 byte length, and `data`'s byte length,
holding those inputs' bytes verbatim, and invokes the Decode Engine on
exactly those three buffer contents with `data`'s byte length as the
length argument; the engine's in-place mutation lands in the third
buffer, after which only the `-1` test and `Buffer::Copy` remain. -/
theorem decryptx_marshalling (e : Engine) (σ : Store) (k v : String) (did : Nat) :
    ∃ σ3 : Store,
      σ3 = σ ++ [utf8Bytes k, utf8Bytes v, readBuf σ did] ∧
      readBuf σ3 σ.length = utf8Bytes k ∧
      (readBuf σ3 σ.length).length = k.utf8ByteSize ∧
      readBuf σ3 (σ.length + 1) = utf8Bytes v ∧
      (readBuf σ3 (σ.length + 1)).length = v.utf8ByteSize ∧
      readBuf σ3 (σ.length + 2) = readBuf σ did ∧
      (readBuf σ3 (σ.length + 2)).length = (readBuf σ did).length ∧
      (let er := e (readBuf σ3 σ.length) (readBuf σ3 (σ.length + 1))
          (readBuf σ3 (σ.length + 2)) (readBuf σ did).length
       Decryptx e σ [.str k, .str v, .buf did] =
         if er.ret = -1 then (writeBuf σ3 (σ.length + 2) er.data, .nullRes)
         else bufferCopy (writeBuf σ3 (σ.length + 2) er.data) er.data er.ret) := by
  refine ⟨σ ++ [utf8Bytes k, utf8Bytes v, readBuf σ did], rfl, ?_⟩
  rw [readBuf_append3_first, readBuf_append3_second, readBuf_append3_third]
  refine ⟨rfl, utf8Bytes_length k, rfl, utf8Bytes_length v, rfl, rfl, ?_⟩
  simp only [writeBuf_third]
  exact Decryptx_wf_eq3 e σ k v did

/-- C3: on every well-formed call where the Decode Engine returns `-1`,
`Decryptx` returns the null result (not a thrown failure), and no
decoded buffer is materialized: the final store holds only the three
working buffers beyond the caller's. -/
theorem decryptx_engine_fail_null (e : Engine) (σ : Store) (k v : String) (did : Nat)
    (hfail : (e (utf8Bytes k) (utf8Bytes v) (readBuf σ did)
      (readBuf σ did).length).ret = -1) :
    ∃ σ4, Decryptx e σ [.str k, .str v, .buf did] = (σ4, .nullRes) ∧
      σ4.length = σ.length + 3 ∧
      ∀ m, (Decryptx e σ [.str k, .str v, .buf did]).2 ≠ .err m := by
  rw [Decryptx_wf_eq3 e σ k v did]
  rw [if_pos hfail]
  exact ⟨_, rfl, by simp, by simp⟩

/-- Witness for C3: the always-failing stub engine yields the null
result on a concrete call. -/
theorem decryptx_engine_fail_null_witness :
    ∃ σ4, Decryptx engineFail [[1, 2, 3]] [.str "k", .str "t", .buf 0] = (σ4, .nullRes) ∧
      σ4.length = [[1, 2, 3]].length + 3 ∧
      ∀ m, (Decryptx engineFail [[1, 2, 3]] [.str "k", .str "t", .buf 0]).2 ≠ .err m :=
  decryptx_engine_fail_null engineFail [[1, 2, 3]] "k" "t" 0 (by decide)


/-- C2: on every well-formed call where the contract-satisfying Decode
Engine returns `r ≥ 0`, `Decryptx` returns a fresh buffer of exactly `r`
bytes equal to the first `r` bytes of the engine-mutated working data
buffer, and the returned buffer is independent of the caller's data
buffer: overwriting either one does not change the other. -/
theorem decryptx_success_copy (e : Engine) (he : EngineContract e) (σ : Store)
    (k v : String) (did : Nat) (hdid : did < σ.length)
    (hnn : 0 ≤ (e (utf8Bytes k) (utf8Bytes v) (readBuf σ did)
      (readBuf σ did).length).ret) :
    ∃ σ' rid,
      Decryptx e σ [.str k, .str v, .buf did] = (σ', .bufRes rid) ∧
      readBuf σ' rid =
        (e (utf8Bytes k) (utf8Bytes v) (readBuf σ did) (readBuf σ did).length).data.take
          (e (utf8Bytes k) (utf8Bytes v) (readBuf σ did) (readBuf σ did).length).ret.toNat ∧
      (readBuf σ' rid).length =
        (e (utf8Bytes k) (utf8Bytes v) (readBuf σ did) (readBuf σ did).length).ret.toNat ∧
      rid ≠ did ∧
      readBuf σ' did = readBuf σ did ∧
      (∀ b, readBuf (writeBuf σ' rid b) did = readBuf σ' did) ∧
      (∀ b, readBuf (writeBuf σ' did b) rid = readBuf σ' rid) := by
  obtain ⟨hro, hdl⟩ := he (utf8Bytes k) (utf8Bytes v) (readBuf σ did)
  have hne : (e (utf8Bytes k) (utf8Bytes v) (readBuf σ did)
      (readBuf σ did).length).ret ≠ -1 := by
    intro hc
    rw [hc] at hnn
    omega
  have hle : (e (utf8Bytes k) (utf8Bytes v) (readBuf σ did)
      (readBuf σ did).length).ret ≤ ((readBuf σ did).length : Int) := by
    rcases hro with h | h
    · exact absurd h hne
    · exact h.2
  rw [Decryptx_wf_eq3 e σ k v did, if_neg hne]
  rw [bufferCopy, if_pos ⟨hnn, by rw [hdl]; exact hle⟩]
  simp only [allocBuf]
  refine ⟨_, _, rfl, ?_, ?_, ?_, ?_, ?_, ?_⟩
  · rw [readBuf_append_self]
  · rw [readBuf_append_self]
    rw [List.length_take, hdl]
    omega
  · simp
    omega
  · rw [List.append_assoc]
    exact readBuf_append_left σ _ did hdid
  · intro b
    apply readBuf_writeBuf_ne
    simp
    omega
  · intro b
    apply readBuf_writeBuf_ne
    simp
    omega

/-- Witness for C2 with the reversing stub engine on a concrete store. -/
theorem decryptx_success_copy_witness :
    ∃ σ' rid,
      Decryptx engineRev [[1, 2, 3]] [.str "k", .str "t", .buf 0] = (σ', .bufRes rid) ∧
      readBuf σ' rid =
        (engineRev (utf8Bytes "k") (utf8Bytes "t") (readBuf [[1, 2, 3]] 0)
          (readBuf [[1, 2, 3]] 0).length).data.take
          (engineRev (utf8Bytes "k") (utf8Bytes "t") (readBuf [[1, 2, 3]] 0)
            (readBuf [[1, 2, 3]] 0).length).ret.toNat ∧
      (readBuf σ' rid).length =
        (engineRev (utf8Bytes "k") (utf8Bytes "t") (readBuf [[1, 2, 3]] 0)
          (readBuf [[1, 2, 3]] 0).length).ret.toNat ∧
      rid ≠ 0 ∧
      readBuf σ' 0 = readBuf [[1, 2, 3]] 0 ∧
      (∀ b, readBuf (writeBuf σ' rid b) 0 = readBuf σ' 0) ∧
      (∀ b, readBuf (writeBuf σ' 0 b) rid = readBuf σ' rid) :=
  decryptx_success_copy engineRev engineRev_contract [[1, 2, 3]] "k" "t" 0
    (by decide) (by decide)

/-- C5: every (non-absent) decoded result of a well-formed call under a
contract-satisfying engine is at most as long as the caller's original
data buffer. -/
theorem decryptx_result_length_le (e : Engine) (he : EngineContract e) (σ : Store)
    (k v : String) (did : Nat) (σ' : Store) (rid : Nat)
    (h : Decryptx e σ [.str k, .str v, .buf did] = (σ', .bufRes rid)) :
    (readBuf σ' rid).length ≤ (readBuf σ did).length := by
  obtain ⟨hro, hdl⟩ := he (utf8Bytes k) (utf8Bytes v) (readBuf σ did)
  rw [Decryptx_wf_eq3 e σ k v did] at h
  by_cases hm : (e (utf8Bytes k) (utf8Bytes v) (readBuf σ did)
      (readBuf σ did).length).ret = -1
  · rw [if_pos hm] at h
    cases h
  · rw [if_neg hm, bufferCopy] at h
    by_cases hc : 0 ≤ (e (utf8Bytes k) (utf8Bytes v) (readBuf σ did)
        (readBuf σ did).length).ret ∧
        (e (utf8Bytes k) (utf8Bytes v) (readBuf σ did)
          (readBuf σ did).length).ret ≤
          (((e (utf8Bytes k) (utf8Bytes v) (readBuf σ did)
            (readBuf σ did).length).data.length : Int))
    · rw [if_pos hc] at h
      simp only [allocBuf] at h
      obtain ⟨hσ, hrid⟩ := Prod.mk.injEq .. ▸ h
      cases hrid
      rw [← hσ, readBuf_append_self, List.length_take, hdl]
      omega
    · rw [if_neg hc] at h
      cases h

/-- Witness for C5 at a concrete call with the reversing stub engine. -/
theorem decryptx_result_length_le_witness :
    (readBuf [[1, 2, 3], [107], [116], [3, 2, 1], [3, 2, 1]] 4).length ≤
      (readBuf [[1, 2, 3]] 0).length :=
  decryptx_result_length_le engineRev engineRev_contract [[1, 2, 3]] "k" "t" 0
    [[1, 2, 3], [107], [116], [3, 2, 1], [3, 2, 1]] 4 (by decide)


/-- C6: on every call (well-formed or not), every buffer the caller owned
before the call — in particular the original `data` buffer — is
byte-for-byte unchanged when the call returns, and a returned success
buffer has an id strictly beyond the caller's buffers and all three
working copies, so overwriting the result afterwards cannot change any
caller-owned buffer. -/
theorem decryptx_frame (e : Engine) (σ : Store) (info : List JsValue) (i : Nat)
    (hi : i < σ.length) :
    readBuf (Decryptx e σ info).1 i = readBuf σ i ∧
    ∀ rid, (Decryptx e σ info).2 = .bufRes rid →
      σ.length + 2 < rid ∧
      ∀ b, readBuf (writeBuf (Decryptx e σ info).1 rid b) i = readBuf σ i := by
  by_cases hf : 2 ≤ (precondMsgs info).length
  · unfold Decryptx
    rw [if_pos hf]
    refine ⟨rfl, ?_⟩
    intro rid hr
    cases hr
  · rw [Decryptx_not_fatal_eq e σ info (by omega)]
    cases hm : precondMsgs info with
    | cons m tl =>
      simp only [hm]
      refine ⟨readBuf_append_left σ _ i hi, ?_⟩
      intro rid hb
      cases hb
    | nil =>
      simp only [hm]
      by_cases hr : (e (utf8Bytes (info.getD 0 .undef).asString)
          (utf8Bytes (info.getD 1 .undef).asString)
          ((info.getD 2 .undef).bufferBytes σ)
          ((info.getD 2 .undef).bufferBytes σ).length).ret = -1
      · rw [if_pos hr]
        refine ⟨readBuf_append_left σ _ i hi, ?_⟩
        intro rid hb
        cases hb
      · rw [if_neg hr, bufferCopy]
        by_cases hcond : 0 ≤ (e (utf8Bytes (info.getD 0 .undef).asString)
            (utf8Bytes (info.getD 1 .undef).asString)
            ((info.getD 2 .undef).bufferBytes σ)
            ((info.getD 2 .undef).bufferBytes σ).length).ret ∧
            (e (utf8Bytes (info.getD 0 .undef).asString)
              (utf8Bytes (info.getD 1 .undef).asString)
              ((info.getD 2 .undef).bufferBytes σ)
              ((info.getD 2 .undef).bufferBytes σ).length).ret ≤
              (((e (utf8Bytes (info.getD 0 .undef).asString)
                (utf8Bytes (info.getD 1 .undef).asString)
                ((info.getD 2 .undef).bufferBytes σ)
                ((info.getD 2 .undef).bufferBytes σ).length).data.length : Int))
        · rw [if_pos hcond]
          simp only [allocBuf]
          constructor
          · rw [List.append_assoc]
            exact readBuf_append_left σ _ i hi
          · intro rid hb
            cases hb
            constructor
            · simp
            · intro b
              rw [readBuf_writeBuf_ne _ _ _ _ (by simp; omega)]
              rw [List.append_assoc]
              exact readBuf_append_left σ _ i hi
        · rw [if_neg hcond]
          refine ⟨readBuf_append_left σ _ i hi, ?_⟩
          intro rid hb
          cases hb

/-- Witness for C6 at a concrete call: the caller's buffer is unchanged
and the returned buffer id lies beyond the working copies. -/
theorem decryptx_frame_witness :
    readBuf (Decryptx engineRev [[1, 2, 3]] [.str "k", .str "t", .buf 0]).1 0 =
      readBuf [[1, 2, 3]] 0 ∧
    List.length [[1, 2, 3]] + 2 < 4 :=
  ⟨(decryptx_frame engineRev [[1, 2, 3]] [.str "k", .str "t", .buf 0] 0 (by decide)).1,
   ((decryptx_frame engineRev [[1, 2, 3]] [.str "k", .str "t", .buf 0] 0
      (by decide)).2 4 (by decide)).1⟩

/-- C7: `decryptx` is deterministic — two calls with byte-identical
`(key, validate, data)` inputs (possibly in different stores) produce the
same caller-visible observation: the same thrown message, both absent,
or buffers with exactly the same bytes. -/
theorem decryptx_deterministic (e : Engine) (σ1 σ2 : Store) (k v : String)
    (did1 did2 : Nat) (h : readBuf σ1 did1 = readBuf σ2 did2) :
    observe (Decryptx e σ1 [.str k, .str v, .buf did1]) =
      observe (Decryptx e σ2 [.str k, .str v, .buf did2]) := by
  rw [Decryptx_wf_eq3 e σ1 k v did1, Decryptx_wf_eq3 e σ2 k v did2, h]
  by_cases hr : (e (utf8Bytes k) (utf8Bytes v) (readBuf σ2 did2)
      (readBuf σ2 did2).length).ret = -1
  · rw [if_pos hr, if_pos hr]
    rfl
  · rw [if_neg hr, if_neg hr, bufferCopy, bufferCopy]
    by_cases hcond : 0 ≤ (e (utf8Bytes k) (utf8Bytes v) (readBuf σ2 did2)
        (readBuf σ2 did2).length).ret ∧
        (e (utf8Bytes k) (utf8Bytes v) (readBuf σ2 did2)
          (readBuf σ2 did2).length).ret ≤
          (((e (utf8Bytes k) (utf8Bytes v) (readBuf σ2 did2)
            (readBuf σ2 did2).length).data.length : Int))
    · rw [if_pos hcond, if_pos hcond]
      simp only [allocBuf, observe]
      rw [readBuf_append_self, readBuf_append_self]
    · rw [if_neg hcond, if_neg hcond]
      rfl

/-- Witness for C7: the same data bytes at different ids in different
stores give the same observation. -/
theorem decryptx_deterministic_witness :
    observe (Decryptx engineRev [[5, 6]] [.str "k", .str "t", .buf 0]) =
      observe (Decryptx engineRev [[9], [5, 6]] [.str "k", .str "t", .buf 1]) :=
  decryptx_deterministic engineRev [[5, 6]] [[9], [5, 6]] "k" "t" 0 1 (by decide)


/-- C8: a call with an empty data buffer (and string key/validate) is
well-formed: no precondition failure is raised, the Decode Engine is
invoked with the empty buffer and length `0`, and under the engine
contract the call completes with either the null result or an (empty)
decoded buffer. -/
theorem decryptx_empty_data (e : Engine) (he : EngineContract e) (σ : Store)
    (k v : String) (did : Nat) (h0 : readBuf σ did = []) :
    ((e (utf8Bytes k) (utf8Bytes v) [] 0).ret = -1 ∧
      Decryptx e σ [.str k, .str v, .buf did] =
        (σ ++ [utf8Bytes k, utf8Bytes v, (e (utf8Bytes k) (utf8Bytes v) [] 0).data],
          .nullRes)) ∨
    ((e (utf8Bytes k) (utf8Bytes v) [] 0).ret = 0 ∧
      ∃ σ' rid, Decryptx e σ [.str k, .str v, .buf did] = (σ', .bufRes rid) ∧
        readBuf σ' rid = []) := by
  have heq := Decryptx_wf_eq3 e σ k v did
  rw [h0] at heq
  obtain ⟨hro, hdl⟩ := he (utf8Bytes k) (utf8Bytes v) []
  simp only [List.length_nil] at heq hro hdl
  rcases hro with hr | ⟨hge, hle⟩
  · left
    refine ⟨hr, ?_⟩
    rw [heq, if_pos hr]
  · right
    have hr0 : (e (utf8Bytes k) (utf8Bytes v) [] 0).ret = 0 := by omega
    refine ⟨hr0, ?_⟩
    rw [heq, if_neg (by omega), bufferCopy, if_pos ⟨hge, by omega⟩]
    simp only [allocBuf]
    refine ⟨_, _, rfl, ?_⟩
    rw [readBuf_append_self, hr0]
    rfl

/-- Witness for C8: the always-failing stub engine on an empty data
buffer yields the null branch. -/
theorem decryptx_empty_data_witness :
    ((engineFail (utf8Bytes "k") (utf8Bytes "t") [] 0).ret = -1 ∧
      Decryptx engineFail [[]] [.str "k", .str "t", .buf 0] =
        ([[]] ++ [utf8Bytes "k", utf8Bytes "t",
          (engineFail (utf8Bytes "k") (utf8Bytes "t") [] 0).data], .nullRes)) ∨
    ((engineFail (utf8Bytes "k") (utf8Bytes "t") [] 0).ret = 0 ∧
      ∃ σ' rid, Decryptx engineFail [[]] [.str "k", .str "t", .buf 0] = (σ', .bufRes rid) ∧
        readBuf σ' rid = []) :=
  decryptx_empty_data engineFail engineFail_contract [[]] "k" "t" 0 (by decide)

/-- The final `Buffer::Copy` step never produces the null result or a
thrown failure: it yields a fresh buffer or fails outright. -/
theorem bufferCopy_snd (σ : Store) (src : Buf) (len : Int) :
    (bufferCopy σ src len).2 = .bufRes σ.length ∨ (bufferCopy σ src len).2 = .copyFail := by
  rw [bufferCopy]
  by_cases hc : 0 ≤ len ∧ len ≤ (src.length : Int)
  · rw [if_pos hc]
    exact Or.inl rfl
  · rw [if_neg hc]
    exact Or.inr rfl

/-- C9: only the exact engine return value `-1` maps to the null result.
For every other return value `r` — including negative values such as `-2`
— `Decryptx` takes the success path: it hands `r` to `Buffer::Copy` as
the length of the buffer to build, and neither returns null nor throws. -/
theorem decryptx_non_sentinel (e : Engine) (σ : Store) (k v : String) (did : Nat)
    (hne : (e (utf8Bytes k) (utf8Bytes v) (readBuf σ did)
      (readBuf σ did).length).ret ≠ -1) :
    Decryptx e σ [.str k, .str v, .buf did] =
      bufferCopy
        (σ ++ [utf8Bytes k, utf8Bytes v,
          (e (utf8Bytes k) (utf8Bytes v) (readBuf σ did) (readBuf σ did).length).data])
        (e (utf8Bytes k) (utf8Bytes v) (readBuf σ did) (readBuf σ did).length).data
        (e (utf8Bytes k) (utf8Bytes v) (readBuf σ did) (readBuf σ did).length).ret ∧
    (Decryptx e σ [.str k, .str v, .buf did]).2 ≠ .nullRes ∧
    ∀ m, (Decryptx e σ [.str k, .str v, .buf did]).2 ≠ .err m := by
  have heq := Decryptx_wf_eq3 e σ k v did
  rw [if_neg hne] at heq
  refine ⟨heq, ?_, ?_⟩
  · rw [heq]
    rcases bufferCopy_snd
        (σ ++ [utf8Bytes k, utf8Bytes v,
          (e (utf8Bytes k) (utf8Bytes v) (readBuf σ did) (readBuf σ did).length).data])
        (e (utf8Bytes k) (utf8Bytes v) (readBuf σ did) (readBuf σ did).length).data
        (e (utf8Bytes k) (utf8Bytes v) (readBuf σ did) (readBuf σ did).length).ret with
      hb | hb <;> rw [hb] <;> intro hcon <;> cases hcon
  · intro m
    rw [heq]
    rcases bufferCopy_snd
        (σ ++ [utf8Bytes k, utf8Bytes v,
          (e (utf8Bytes k) (utf8Bytes v) (readBuf σ did) (readBuf σ did).length).data])
        (e (utf8Bytes k) (utf8Bytes v) (readBuf σ did) (readBuf σ did).length).data
        (e (utf8Bytes k) (utf8Bytes v) (readBuf σ did) (readBuf σ did).length).ret with
      hb | hb <;> rw [hb] <;> intro hcon <;> cases hcon

/-- Witness for C9: the contract-violating stub engine returning `-2`
sends the gateway down the success path (where the copy then fails),
not to the null result. -/
theorem decryptx_non_sentinel_witness :
    Decryptx engineNegTwo [[1, 2]] [.str "k", .str "t", .buf 0] =
      bufferCopy
        ([[1, 2]] ++ [utf8Bytes "k", utf8Bytes "t",
          (engineNegTwo (utf8Bytes "k") (utf8Bytes "t") (readBuf [[1, 2]] 0)
            (readBuf [[1, 2]] 0).length).data])
        (engineNegTwo (utf8Bytes "k") (utf8Bytes "t") (readBuf [[1, 2]] 0)
          (readBuf [[1, 2]] 0).length).data
        (engineNegTwo (utf8Bytes "k") (utf8Bytes "t") (readBuf [[1, 2]] 0)
          (readBuf [[1, 2]] 0).length).ret ∧
    (Decryptx engineNegTwo [[1, 2]] [.str "k", .str "t", .buf 0]).2 ≠ .nullRes ∧
    ∀ m, (Decryptx engineNegTwo [[1, 2]] [.str "k", .str "t", .buf 0]).2 ≠ .err m :=
  decryptx_non_sentinel engineNegTwo [[1, 2]] "k" "t" 0 (by decide)

/-- C10: the key and validate bytes handed to the Decode Engine are the
UTF-8 encodings of the string arguments, and the working-buffer sizes
are UTF-8 byte lengths, not character counts: the final store still
holds the two encodings at the working-buffer ids, their lengths are the
strings' UTF-8 byte sizes, and a one-character non-ASCII string (U+00E9)
yields a two-byte working buffer. -/
theorem decryptx_utf8_inputs (e : Engine) (σ : Store) (k v : String) (did : Nat) :
    readBuf (Decryptx e σ [.str k, .str v, .buf did]).1 σ.length = utf8Bytes k ∧
    readBuf (Decryptx e σ [.str k, .str v, .buf did]).1 (σ.length + 1) = utf8Bytes v ∧
    (utf8Bytes k).length = k.utf8ByteSize ∧
    (utf8Bytes v).length = v.utf8ByteSize ∧
    (utf8Bytes (String.mk [Char.ofNat 233])).length = 2 ∧
    (String.mk [Char.ofNat 233]).data.length = 1 := by
  refine ⟨?_, ?_, utf8Bytes_length k, utf8Bytes_length v, by decide, by decide⟩ <;>
  · rw [Decryptx_wf_eq3 e σ k v did]
    by_cases hr : (e (utf8Bytes k) (utf8Bytes v) (readBuf σ did)
        (readBuf σ did).length).ret = -1
    · rw [if_pos hr]
      simp [readBuf_append3_first, readBuf_append3_second]
    · rw [if_neg hr, bufferCopy]
      by_cases hcond : 0 ≤ (e (utf8Bytes k) (utf8Bytes v) (readBuf σ did)
          (readBuf σ did).length).ret ∧
          (e (utf8Bytes k) (utf8Bytes v) (readBuf σ did)
            (readBuf σ did).length).ret ≤
            (((e (utf8Bytes k) (utf8Bytes v) (readBuf σ did)
              (readBuf σ did).length).data.length : Int))
      · rw [if_pos hcond]
        simp only [allocBuf]
        rw [List.append_assoc, readBuf_append_right σ _ _ (by omega)]
        simp [readBuf]
      · rw [if_neg hcond]
        simp [readBuf_append3_first, readBuf_append3_second]

end HaloQuery
